import Mathlib

/-!
Verification development for the stock-monitor pipeline in
`src/streamlit_app.py`.

The Python program keeps per-URL target records as JSON-shaped
dictionaries, classifies fetched pages into stock states, fingerprints
the extracted signal set with MD5 over a key-sorted JSON dump, and
tracks success/failure/change counters.  This file gives a shallow
embedding of those operations:

* a signal set (`Stock`) is the dictionary produced by
  `extract_stock_info`, modelled as an insertion-ordered association
  list of JSON values;
* `stock_status` is the ordered rule cascade of the classifier;
* `content_hash` is `md5(json.dumps(obj, sort_keys=True))`, with the
  canonical key-sorted serialisation and MD5 spelled out;
* `perform_check` is the orchestrator, with the fetch/extract outcome
  passed in as an explicit environment value (network I/O) and the
  timestamp as a parameter;
* `fetch` is the 3-attempt retry loop over an environment of HTTP
  responses;
* `send_email` is the SMTP dispatch over an environment of SMTP
  operation outcomes;
* the sidebar "Add or update tracked URL" handler is `upsert`/`register`.

Machine-level caveats: Python `str` slicing/`in` operate on code
points, modelled on `String.data : List Char`; Python `dict.get`
truthiness is modelled explicitly (`truthy`).
-/

/-- A JSON value stored in the signal-set dictionary built by
`extract_stock_info`: the dictionary maps string keys to booleans
(`notify_button`, `add_to_cart`) or strings (`full_text`,
`product_section`). -/
inductive JVal where
  | jbool (b : Bool)
  | jstr (s : String)
deriving DecidableEq, Repr

/-- The signal set: the Python dict from `extract_stock_info`, as an
insertion-ordered association list (Python dicts preserve insertion
order; keys are unique in dicts the extractor builds). -/
abbrev Stock := List (String × JVal)

/-- `stock.get(k)`: first binding for key `k`, if any. -/
def getKey (stock : Stock) (k : String) : Option JVal :=
  match stock.find? (fun p => p.1 == k) with
  | some p => some p.2
  | none => none

/-- Python truthiness of an optional JSON value: a missing key is
falsy, a boolean is itself, a string is truthy iff nonempty. -/
def truthy : Option JVal → Bool
  | none => false
  | some (.jbool b) => b
  | some (.jstr s) => !(s == "")

/-- `stock.get(k, "")` where the stored value is a string.  The
extractor always stores a string under `full_text` (a non-string value
there would fault the Python code before any comparison). -/
def getTextD (stock : Stock) (k : String) : String :=
  match getKey stock k with
  | some (.jstr v) => v
  | _ => ""

/-- Python `pat in s` on code-point lists: `pat` occurs as a
contiguous run of `s`. -/
def hasSub (pat : List Char) : List Char → Bool
  | [] => pat.isEmpty
  | c :: rest => pat.isPrefixOf (c :: rest) || hasSub pat rest

/-- Python `k in t` for strings (substring test). -/
def strContains (t k : String) : Bool :=
  hasSub k.data t.data

/-- The out-of-stock phrase list of `stock_status`, in source order. -/
def out_keys : List String :=
  ["notify you when this product is back in stock",
   "notify me",
   "out of stock",
   "unavailable"]

/-- The in-stock phrase list of `stock_status`, in source order. -/
def in_keys : List String :=
  ["add to cart", "add to bag", "buy now", "purchase", "in stock"]

/-- The classifier `stock_status`: ordered cascade, first match wins.
Structural affordances (`notify_button`, then `add_to_cart`) are
consulted before the text phrase lists (out-of-stock phrases, then
in-stock phrases); otherwise `UNKNOWN`. -/
def stock_status (stock : Stock) : String :=
  if truthy (getKey stock "notify_button") then "OUT_OF_STOCK"
  else if truthy (getKey stock "add_to_cart") then "IN_STOCK"
  else
    let t := getTextD stock "full_text"
    if out_keys.any (fun k => strContains t k) then "OUT_OF_STOCK"
    else if in_keys.any (fun k => strContains t k) then "IN_STOCK"
    else "UNKNOWN"

/-! ## Fingerprinter: `content_hash` = MD5 of the key-sorted JSON dump -/

/-- JSON string escaping as `json.dumps(..., ensure_ascii=False)` does
it: backslash, double quote, and the control characters; everything
else (including non-ASCII) passes through. -/
def escapeChar (c : Char) : String :=
  if c = '\\' then "\\\\"
  else if c = '"' then "\\\""
  else if c = '\n' then "\\n"
  else if c = '\t' then "\\t"
  else if c = '\r' then "\\r"
  else if c.toNat = 8 then "\\b"
  else if c.toNat = 12 then "\\f"
  else if c.toNat < 32 then
    let lo := c.toNat % 16
    let hi := c.toNat / 16
    let hexd := fun (n : Nat) => if n < 10 then Char.ofNat (48 + n) else Char.ofNat (87 + n)
    "\\u00" ++ String.mk [hexd hi, hexd lo]
  else String.mk [c]

/-- Escape a whole string for a JSON dump. -/
def jsonEscape (s : String) : String :=
  s.data.foldr (fun c acc => escapeChar c ++ acc) ""

/-- Serialise one JSON value as `json.dumps` would. -/
def serJVal : JVal → String
  | .jbool true => "true"
  | .jbool false => "false"
  | .jstr s => "\"" ++ jsonEscape s ++ "\""

/-- Insert an entry into a list already sorted by key (Python string
comparison is code-point lexicographic, as is Lean's `String` order). -/
def insEntry (x : String × JVal) : List (String × JVal) → List (String × JVal)
  | [] => [x]
  | y :: ys => if x.1 ≤ y.1 then x :: y :: ys else y :: insEntry x ys

/-- Sort the dictionary entries by key: the `sort_keys=True` of
`json.dumps`. -/
def sortKeys : List (String × JVal) → List (String × JVal)
  | [] => []
  | x :: xs => insEntry x (sortKeys xs)

/-- `json.dumps(obj, sort_keys=True, ensure_ascii=False)` for the
signal-set dictionary: keys sorted, default separators. -/
def dumpsSorted (stock : Stock) : String :=
  "\x7b" ++
    String.intercalate ", "
      ((sortKeys stock).map
        (fun p => "\"" ++ jsonEscape p.1 ++ "\": " ++ serJVal p.2)) ++
  "\x7d"

/-- UTF-8 encoding of one code point, as `str.encode("utf-8")`. -/
def utf8Bytes (c : Char) : List Nat :=
  let n := c.toNat
  if n < 128 then [n]
  else if n < 2048 then [192 + n / 64, 128 + n % 64]
  else if n < 65536 then [224 + n / 4096, 128 + n / 64 % 64, 128 + n % 64]
  else [240 + n / 262144, 128 + n / 4096 % 64, 128 + n / 64 % 64, 128 + n % 64]

/-- UTF-8 bytes of a string. -/
def strBytes (s : String) : List Nat :=
  s.data.foldr (fun c acc => utf8Bytes c ++ acc) []

/-- Truncate to a 32-bit word. -/
def w32 (n : Nat) : Nat := n % 4294967296

/-- Bitwise complement within 32 bits (arguments are kept `< 2^32`). -/
def not32 (n : Nat) : Nat := 4294967295 - n

/-- 32-bit left rotation. -/
def rotl (x s : Nat) : Nat := w32 (x <<< s) ||| (x >>> (32 - s))

/-- The 64 MD5 sine-derived constants (RFC 1321). -/
def md5K : List Nat :=
  [0xd76aa478, 0xe8c7b756, 0x242070db, 0xc1bdceee,
   0xf57c0faf, 0x4787c62a, 0xa8304613, 0xfd469501,
   0x698098d8, 0x8b44f7af, 0xffff5bb1, 0x895cd7be,
   0x6b901122, 0xfd987193, 0xa679438e, 0x49b40821,
   0xf61e2562, 0xc040b340, 0x265e5a51, 0xe9b6c7aa,
   0xd62f105d, 0x02441453, 0xd8a1e681, 0xe7d3fbc8,
   0x21e1cde6, 0xc33707d6, 0xf4d50d87, 0x455a14ed,
   0xa9e3e905, 0xfcefa3f8, 0x676f02d9, 0x8d2a4c8a,
   0xfffa3942, 0x8771f681, 0x6d9d6122, 0xfde5380c,
   0xa4beea44, 0x4bdecfa9, 0xf6bb4b60, 0xbebfbc70,
   0x289b7ec6, 0xeaa127fa, 0xd4ef3085, 0x04881d05,
   0xd9d4d039, 0xe6db99e5, 0x1fa27cf8, 0xc4ac5665,
   0xf4292244, 0x432aff97, 0xab9423a7, 0xfc93a039,
   0x655b59c3, 0x8f0ccc92, 0xffeff47d, 0x85845dd1,
   0x6fa87e4f, 0xfe2ce6e0, 0xa3014314, 0x4e0811a1,
   0xf7537e82, 0xbd3af235, 0x2ad7d2bb, 0xeb86d391]

/-- The 64 MD5 per-round left-rotation amounts. -/
def md5S : List Nat :=
  [7, 12, 17, 22, 7, 12, 17, 22, 7, 12, 17, 22, 7, 12, 17, 22,
   5, 9, 14, 20, 5, 9, 14, 20, 5, 9, 14, 20, 5, 9, 14, 20,
   4, 11, 16, 23, 4, 11, 16, 23, 4, 11, 16, 23, 4, 11, 16, 23,
   6, 10, 15, 21, 6, 10, 15, 21, 6, 10, 15, 21, 6, 10, 15, 21]

/-- MD5 padding: append `0x80`, zero bytes up to 56 mod 64, then the
original bit length as a little-endian 64-bit quantity. -/
def md5Pad (bytes : List Nat) : List Nat :=
  let len := bytes.length
  let zeros := (119 - len % 64) % 64
  let bitLen := (8 * len) % 18446744073709551616
  let le64 := (List.range 8).map (fun i => bitLen / 256 ^ i % 256)
  bytes ++ [128] ++ List.replicate zeros 0 ++ le64

/-- Split padded input into 64-byte blocks. -/
def md5Blocks : List Nat → List (List Nat)
  | [] => []
  | b :: rest => (b :: rest).take 64 :: md5Blocks ((b :: rest).drop 64)
  termination_by l => l.length
  decreasing_by
    simp only [List.length_drop, List.length_cons]
    omega

/-- The 16 little-endian 32-bit message words of one 64-byte block. -/
def blockWords (block : List Nat) : List Nat :=
  (List.range 16).map (fun i =>
    block.getD (4 * i) 0 + 256 * block.getD (4 * i + 1) 0 +
    65536 * block.getD (4 * i + 2) 0 + 16777216 * block.getD (4 * i + 3) 0)

/-- One of the 64 MD5 rounds on state `(a, b, c, d)`. -/
def md5Round (M : List Nat) (st : Nat × Nat × Nat × Nat) (i : Nat) :
    Nat × Nat × Nat × Nat :=
  let a := st.1
  let b := st.2.1
  let c := st.2.2.1
  let d := st.2.2.2
  let fg : Nat × Nat :=
    if i < 16 then ((b &&& c) ||| (not32 b &&& d), i)
    else if i < 32 then ((d &&& b) ||| (not32 d &&& c), (5 * i + 1) % 16)
    else if i < 48 then (b ^^^ c ^^^ d, (3 * i + 5) % 16)
    else (c ^^^ (b ||| not32 d), (7 * i) % 16)
  let f := w32 (fg.1 + a + md5K.getD i 0 + M.getD fg.2 0)
  (d, w32 (b + rotl f (md5S.getD i 0)), b, c)

/-- Process one 64-byte block: 64 rounds, then add into the state. -/
def md5Block (st : Nat × Nat × Nat × Nat) (block : List Nat) :
    Nat × Nat × Nat × Nat :=
  let M := blockWords block
  let r := (List.range 64).foldl (md5Round M) st
  (w32 (st.1 + r.1), w32 (st.2.1 + r.2.1),
   w32 (st.2.2.1 + r.2.2.1), w32 (st.2.2.2 + r.2.2.2))

/-- Lowercase hex digit. -/
def hexDigit (n : Nat) : Char :=
  if n < 10 then Char.ofNat (48 + n) else Char.ofNat (87 + n)

/-- Two lowercase hex digits of a byte. -/
def byteHex (b : Nat) : String :=
  String.mk [hexDigit (b / 16 % 16), hexDigit (b % 16)]

/-- Hex rendering of a 32-bit word, little-endian byte order, as in an
MD5 hexdigest. -/
def wordHexLE (word : Nat) : String :=
  byteHex (word % 256) ++ byteHex (word / 256 % 256) ++
  byteHex (word / 65536 % 256) ++ byteHex (word / 16777216 % 256)

/-- `hashlib.md5(bytes).hexdigest()`. -/
def md5hex (bytes : List Nat) : String :=
  let st := (md5Pad bytes |> md5Blocks).foldl md5Block
    (0x67452301, 0xefcdab89, 0x98badcfe, 0x10325476)
  wordHexLE st.1 ++ wordHexLE st.2.1 ++ wordHexLE st.2.2.1 ++ wordHexLE st.2.2.2

/-- The fingerprinter `content_hash`: MD5 hexdigest of the UTF-8 bytes
of the key-sorted JSON dump of the signal set. -/
def content_hash (obj : Stock) : String :=
  md5hex (strBytes (dumpsSorted obj))

/-! ## Target records and the orchestrator `perform_check` -/

/-- One entry of a target's `log` list: `{at, status, event, error?}`.
The Python key `at` is a Lean keyword, hence the field name `at_`. -/
structure LogEntry where
  at_ : String
  status : String
  event : String
  error : Option String := none
deriving DecidableEq, Repr

/-- A target dictionary.  Every field is optional: a Python dict may
lack any key (a freshly created target starts as `{}`), and JSON
`null` behaves like a missing key under every `.get` read the program
performs, so both are modelled as `none`. -/
structure Target where
  url : Option String := none
  interval_sec : Option Int := none
  recipients : Option (List String) := none
  last_checked : Option String := none
  last_status : Option String := none
  previous_hash : Option String := none
  last_change : Option String := none
  change_count : Option Int := none
  success_count : Option Int := none
  fail_count : Option Int := none
  last_error : Option String := none
  log : Option (List LogEntry) := none
deriving DecidableEq, Repr

/-- Python `str` slicing `s[:n]` (by code points). -/
def strTake (s : String) (n : Nat) : String :=
  String.mk (s.data.take n)

/-- `int(t.get("success_count", 0))` view of a target's counter. -/
def scount (t : Target) : Int := t.success_count.getD 0

/-- `int(t.get("fail_count", 0))` view. -/
def fcount (t : Target) : Int := t.fail_count.getD 0

/-- `int(t.get("change_count", 0))` view. -/
def ccount (t : Target) : Int := t.change_count.getD 0

/-- `t.get("log", [])` view. -/
def logsD (t : Target) : List LogEntry := t.log.getD []

/-- The orchestrator `perform_check(url, t)`.  The combined outcome of
`fetch(url)` + `extract_stock_info` is network input, passed as
`fetched` (`.error e` models an exception with message `str(e)`);
`now` stands for the `now_iso()` timestamps taken during this check.
Returns `(updated target, status, changed flag)`. -/
def perform_check (fetched : Except String Stock) (now : String)
    (t0 : Target) : Target × String × Bool :=
  let t := { t0 with
    success_count := some (t0.success_count.getD 0)
    fail_count := some (t0.fail_count.getD 0)
    last_error := some (t0.last_error.getD "") }
  match fetched with
  | .ok s_info =>
      let h := content_hash s_info
      let new_status := stock_status s_info
      let changed := match t.previous_hash with
        | none => false
        | some p => !(p == "") && !(h == p)
      let t := if changed then
          { t with
            last_change := some now
            change_count := some (t.change_count.getD 0 + 1)
            log := some (t.log.getD [] ++
              [{ at_ := now, status := new_status, event := "changed" }]) }
        else t
      let t := { t with
        previous_hash := some h
        last_status := some new_status
        last_checked := some now
        success_count := some (t.success_count.getD 0 + 1)
        last_error := some "" }
      (t, new_status, changed)
  | .error e =>
      let msg := strTake e 300
      let t := { t with
        last_checked := some now
        fail_count := some (t.fail_count.getD 0 + 1)
        last_error := some msg
        log := some (t.log.getD [] ++
          [{ at_ := now, status := "ERROR", event := "failure",
             error := some msg }]) }
      (t, "ERROR", false)

/-- A sequence of checks on one target: fold `perform_check` over the
per-invocation environments (fetch outcome and timestamp). -/
def runChecks (t : Target) (envs : List (Except String Stock × String)) :
    Target :=
  envs.foldl (fun acc e => (perform_check e.1 e.2 acc).1) t

/-! ## Fetcher: 3-attempt retry loop -/

/-- What one `session.get(url, timeout)` call does: either raise an
exception (connection error, timeout, ...) or deliver a response with
a status code and body. -/
inductive HttpEvent where
  | raise (msg : String)
  | resp (code : Nat) (body : String)
deriving DecidableEq, Repr

/-- How `fetch` can fail: a propagated `session.get` exception, or the
`HTTPError` that `raise_for_status` throws for a 4xx/5xx code. -/
inductive FetchError where
  | connErr (msg : String)
  | httpErr (code : Nat)
deriving DecidableEq, Repr

/-- `Response.raise_for_status()`: raises `HTTPError` iff the status
code is in 400–599. -/
def raiseForStatus (code : Nat) : Except FetchError Unit :=
  if 400 ≤ code ∧ code < 600 then .error (.httpErr code) else .ok ()

/-- The body of `fetch`'s `for attempt in range(3)` loop, plus the
trailing `r.raise_for_status(); return r.text`.  `env i` is the
outcome of `session.get` on attempt `i`; `i` is the current attempt
index, `rem` the remaining loop iterations, `sleeps` the
`time.sleep` durations performed so far (in seconds).  When `rem = 0`
the loop is exhausted and `r` still names the last response,
`env (i - 1)`. -/
def fetchGo (env : Nat → HttpEvent) :
    Nat → Nat → List Nat → Except FetchError String × List Nat
  | i, rem + 1, sleeps =>
      match env i with
      | .raise m => (.error (.connErr m), sleeps)
      | .resp code body =>
          if code = 403 ∨ code = 429 then
            fetchGo env (i + 1) rem (sleeps ++ [5 * (i + 1)])
          else
            match raiseForStatus code with
            | .error e => (.error e, sleeps)
            | .ok _ => (.ok body, sleeps)
  | i, 0, sleeps =>
      match env (i - 1) with
      | .raise m => (.error (.connErr m), sleeps)
      | .resp code body =>
          match raiseForStatus code with
          | .error e => (.error e, sleeps)
          | .ok _ => (.ok body, sleeps)

/-- `fetch(url)`: up to 3 attempts starting at attempt 0 with no
sleeps performed.  Returns the result together with the list of
back-off sleeps taken. -/
def fetch (env : Nat → HttpEvent) : Except FetchError String × List Nat :=
  fetchGo env 0 3 []

/-! ## Notifier: `send_email` over an SMTP environment -/

/-- The `email` section of the Streamlit secrets, as `get_email_cfg`
reads it.  A missing `enabled`/`sender`/`password` is falsy, modelled
as `false` / `""`. -/
structure EmailCfg where
  enabled : Bool := false
  sender : String := ""
  password : String := ""
  smtp_server : Option String := none
  smtp_port : Option Nat := none
deriving DecidableEq, Repr

/-- A MIME message: ordered header list plus the attached plain-text
body.  `email.message` header assignment *appends* a header line, it
does not replace an existing one. -/
structure Msg where
  headers : List (String × String)
  body : String
deriving DecidableEq, Repr

/-- `msg["H"] = v`: append the header. -/
def addHeader (m : Msg) (name value : String) : Msg :=
  { m with headers := m.headers ++ [(name, value)] }

/-- All values of one header, in order. -/
def headerValues (m : Msg) (name : String) : List String :=
  m.headers.filterMap (fun p => if p.1 == name then some p.2 else none)

/-- Outcomes of the SMTP operations `send_email` performs: the
`smtplib.SMTP(...)` constructor, `starttls`, `login`, and one
`sendmail` per recipient.  `.error e` models a raised exception. -/
structure SmtpEnv where
  connect : String → Nat → Except String Unit
  starttls : Except String Unit
  login : String → String → Except String Unit
  sendmail : String → String → Msg → Except String Unit

/-- The per-recipient loop of `send_email`: for each recipient, first
`msg["To"] = rcpt` (header appended), then `server.sendmail`.  Returns
the successfully dispatched `(recipient, message snapshot)` pairs and
the overall outcome (`.error` when a `sendmail` raised, aborting the
loop; `server.quit()` in the `finally` block does not alter it). -/
def sendLoop (env : SmtpEnv) (sender : String) :
    Msg → List String → List (String × Msg) × Except String Unit
  | _, [] => ([], .ok ())
  | msg, r :: rs =>
      let m := addHeader msg "To" r
      match env.sendmail sender r m with
      | .error e => ([], .error e)
      | .ok _ =>
          let rest := sendLoop env sender m rs
          ((r, m) :: rest.1, rest.2)

/-- `send_email(subject, body, recipients)`.  A falsy `enabled`,
`sender`, `password`, or an empty recipient list makes it return
immediately; otherwise the SMTP connection, STARTTLS, login, and the
per-recipient send loop run, and any raised exception propagates (the
`try`/`finally` only quits the server).  The guard
`emailConfigured` is the `cfg.get("enabled") and cfg.get("sender") and
cfg.get("password") and recipients` test.  `send_email` returns the
dispatched messages and `.ok`/`.error` for normal return / raised
exception. -/
def emailConfigured (cfg : EmailCfg) (recipients : List String) : Bool :=
  cfg.enabled && !(cfg.sender == "") && !(cfg.password == "")
    && !recipients.isEmpty

def send_email (cfg : EmailCfg) (subject body : String)
    (recipients : List String) (env : SmtpEnv) :
    List (String × Msg) × Except String Unit :=
  if !(emailConfigured cfg recipients) then
    ([], .ok ())
  else
    match env.connect (cfg.smtp_server.getD "smtp.gmail.com")
        (cfg.smtp_port.getD 587) with
    | .error e => ([], .error e)
    | .ok _ =>
        match env.starttls with
        | .error e => ([], .error e)
        | .ok _ =>
            match env.login cfg.sender cfg.password with
            | .error e => ([], .error e)
            | .ok _ =>
                let msg0 : Msg :=
                  { headers := [("From", cfg.sender), ("Subject", subject)],
                    body := body }
                sendLoop env cfg.sender msg0 recipients

/-- The "Check selected" button handler: run `perform_check`, store
and save the updated target, and only then, when the check succeeded
and reported a change, call `send_email` with the target's
recipients.  The stored target and the displayed status/changed flag
are fixed before the notification runs. -/
def checkSelected (fetched : Except String Stock) (now : String)
    (sel : String) (t : Target) (cfg : EmailCfg) (env : SmtpEnv) :
    Target × String × Bool × (List (String × Msg) × Except String Unit) :=
  let r := perform_check fetched now t
  let mail :=
    if r.2.1 == "ERROR" then ([], .ok ())
    else if r.2.2 then
      send_email cfg "Stock update"
        ("Page changed. Status: " ++ r.2.1 ++ ". URL: " ++ sel)
        (r.1.recipients.getD []) env
    else ([], .ok ())
  (r.1, r.2.1, r.2.2, mail)

/-! ## Registration: the "Add or update tracked URL" handler -/

/-- The configuration fields the sidebar form supplies. -/
structure Config where
  url : String
  interval_sec : Int
  recipients : List String
deriving DecidableEq, Repr

/-- The handler body: `t = state["targets"].get(url, {})` followed by
`t.update({...})`.  Configuration fields are overwritten from the
form; every history field is re-stored from `t.get(...)` with its
default. -/
def upsert (cfg : Config) (existing : Option Target) : Target :=
  let t := existing.getD {}
  { t with
    url := some cfg.url
    interval_sec := some cfg.interval_sec
    recipients := some cfg.recipients
    last_checked := t.last_checked
    last_status := some (t.last_status.getD "UNKNOWN")
    previous_hash := t.previous_hash
    last_change := t.last_change
    change_count := some (t.change_count.getD 0)
    success_count := some (t.success_count.getD 0)
    fail_count := some (t.fail_count.getD 0)
    last_error := some (t.last_error.getD "")
    log := some (t.log.getD []) }

/-- `state["targets"][url] = t` after the upsert: the snapshot map
(URL to target) updated at the registered URL only. -/
def register (targets : String → Option Target) (cfg : Config) :
    String → Option Target :=
  fun u => if u == cfg.url then some (upsert cfg (targets cfg.url)) else targets u

/-! ## Theorems -/

/-- C4: the classifier `stock_status` is a deterministic total
function into `IN_STOCK` / `OUT_OF_STOCK` / `UNKNOWN`, applying its
rules in a fixed order with first match winning: the notify affordance
yields `OUT_OF_STOCK` before the cart affordance yields `IN_STOCK`,
then out-of-stock phrases before in-stock phrases, otherwise
`UNKNOWN`; in particular a signal set with both affordances present
classifies as `OUT_OF_STOCK`. -/
theorem stock_status_cascade (s : Stock) :
    (truthy (getKey s "notify_button") = true →
      stock_status s = "OUT_OF_STOCK")
    ∧ (truthy (getKey s "notify_button") = false →
       truthy (getKey s "add_to_cart") = true →
      stock_status s = "IN_STOCK")
    ∧ (truthy (getKey s "notify_button") = false →
       truthy (getKey s "add_to_cart") = false →
       out_keys.any (fun k => strContains (getTextD s "full_text") k) = true →
      stock_status s = "OUT_OF_STOCK")
    ∧ (truthy (getKey s "notify_button") = false →
       truthy (getKey s "add_to_cart") = false →
       out_keys.any (fun k => strContains (getTextD s "full_text") k) = false →
       in_keys.any (fun k => strContains (getTextD s "full_text") k) = true →
      stock_status s = "IN_STOCK")
    ∧ (truthy (getKey s "notify_button") = false →
       truthy (getKey s "add_to_cart") = false →
       out_keys.any (fun k => strContains (getTextD s "full_text") k) = false →
       in_keys.any (fun k => strContains (getTextD s "full_text") k) = false →
      stock_status s = "UNKNOWN")
    ∧ (truthy (getKey s "notify_button") = true →
       truthy (getKey s "add_to_cart") = true →
      stock_status s = "OUT_OF_STOCK")
    ∧ (stock_status s = "IN_STOCK" ∨ stock_status s = "OUT_OF_STOCK"
        ∨ stock_status s = "UNKNOWN") := by
  refine ⟨?_, ?_, ?_, ?_, ?_, ?_, ?_⟩
  · intro h1; simp [stock_status, h1]
  · intro h1 h2; simp [stock_status, h1, h2]
  · intro h1 h2 h3; simp [stock_status, h1, h2, h3]
  · intro h1 h2 h3 h4; simp [stock_status, h1, h2, h3, h4]
  · intro h1 h2 h3 h4; simp [stock_status, h1, h2, h3, h4]
  · intro h1 _; simp [stock_status, h1]
  · cases h1 : truthy (getKey s "notify_button") with
    | true => exact Or.inr (Or.inl (by simp [stock_status, h1]))
    | false =>
      cases h2 : truthy (getKey s "add_to_cart") with
      | true => exact Or.inl (by simp [stock_status, h1, h2])
      | false =>
        cases h3 : out_keys.any (fun k => strContains (getTextD s "full_text") k) with
        | true => exact Or.inr (Or.inl (by simp [stock_status, h1, h2, h3]))
        | false =>
          cases h4 : in_keys.any (fun k => strContains (getTextD s "full_text") k) with
          | true => exact Or.inl (by simp [stock_status, h1, h2, h3, h4])
          | false => exact Or.inr (Or.inr (by simp [stock_status, h1, h2, h3, h4]))

/-- C4 witness: a concrete signal set with both the notify and the
cart affordance classifies as `OUT_OF_STOCK`. -/
theorem stock_status_cascade_witness :
    truthy (getKey [("notify_button", JVal.jbool true),
                    ("add_to_cart", JVal.jbool true)] "notify_button") = true
    ∧ truthy (getKey [("notify_button", JVal.jbool true),
                      ("add_to_cart", JVal.jbool true)] "add_to_cart") = true
    ∧ stock_status [("notify_button", JVal.jbool true),
                    ("add_to_cart", JVal.jbool true)] = "OUT_OF_STOCK" :=
  ⟨by decide, by decide,
   (stock_status_cascade _).2.2.2.2.2.1 (by decide) (by decide)⟩

/-- C2: on a fetch failure `perform_check` leaves `previous_hash` and
`last_status` untouched, increments `fail_count` by one (and not
`success_count`), sets `last_checked`, stores the error message
truncated to at most 300 characters in `last_error`, appends a
`failure` log entry with status `ERROR` carrying that message, and
returns status `ERROR` with `changed = false`. -/
theorem perform_check_failure (e now : String) (t : Target) :
    ((perform_check (.error e) now t).1.previous_hash = t.previous_hash)
    ∧ ((perform_check (.error e) now t).1.last_status = t.last_status)
    ∧ (fcount (perform_check (.error e) now t).1 = fcount t + 1)
    ∧ (scount (perform_check (.error e) now t).1 = scount t)
    ∧ ((perform_check (.error e) now t).1.last_checked = some now)
    ∧ ((perform_check (.error e) now t).1.last_error = some (strTake e 300))
    ∧ ((strTake e 300).length ≤ 300)
    ∧ (logsD (perform_check (.error e) now t).1 = logsD t ++
        [{ at_ := now, status := "ERROR", event := "failure",
           error := some (strTake e 300) }])
    ∧ ((perform_check (.error e) now t).2.1 = "ERROR")
    ∧ ((perform_check (.error e) now t).2.2 = false) := by
  refine ⟨rfl, rfl, rfl, rfl, rfl, rfl, ?_, rfl, rfl, rfl⟩
  show (e.data.take 300).length ≤ 300
  exact List.length_take_le 300 e.data

/-- C1: on every successful check `perform_check` stores the new
fingerprint unconditionally, and records a change — sets
`last_change`, increments `change_count`, appends a `changed` log
entry, and returns `changed = true` — iff a prior fingerprint was
present and differs from the new one; the first successful check of a
target without a prior fingerprint never records a change.  The
hypothesis rules out an empty stored fingerprint, which is unreachable
(stored fingerprints are MD5 hexdigests, and a registered target
starts with `None`); Python's truthiness test would treat it like an
absent one. -/
theorem perform_check_success (s_info : Stock) (now : String) (t : Target)
    (hprev : t.previous_hash ≠ some "") :
    ((perform_check (.ok s_info) now t).1.previous_hash
        = some (content_hash s_info))
    ∧ ((perform_check (.ok s_info) now t).1.last_status
        = some (stock_status s_info))
    ∧ ((perform_check (.ok s_info) now t).2.2 = true ↔
        t.previous_hash ≠ none
          ∧ t.previous_hash ≠ some (content_hash s_info))
    ∧ ((perform_check (.ok s_info) now t).2.2 = true →
        (perform_check (.ok s_info) now t).1.last_change = some now
        ∧ ccount (perform_check (.ok s_info) now t).1 = ccount t + 1
        ∧ logsD (perform_check (.ok s_info) now t).1 = logsD t ++
            [{ at_ := now, status := stock_status s_info,
               event := "changed" }])
    ∧ ((perform_check (.ok s_info) now t).2.2 = false →
        (perform_check (.ok s_info) now t).1.last_change = t.last_change
        ∧ ccount (perform_check (.ok s_info) now t).1 = ccount t
        ∧ logsD (perform_check (.ok s_info) now t).1 = logsD t)
    ∧ (t.previous_hash = none →
        (perform_check (.ok s_info) now t).2.2 = false)
    ∧ (scount (perform_check (.ok s_info) now t).1 = scount t + 1)
    ∧ (fcount (perform_check (.ok s_info) now t).1 = fcount t)
    ∧ ((perform_check (.ok s_info) now t).1.last_error = some "")
    ∧ ((perform_check (.ok s_info) now t).1.last_checked = some now)
    ∧ ((perform_check (.ok s_info) now t).2.1 = stock_status s_info) := by
  cases hp : t.previous_hash with
  | none =>
      refine ⟨?_, ?_, ?_, ?_, ?_, ?_, ?_, ?_, ?_, ?_, ?_⟩ <;>
        simp [perform_check, hp, scount, fcount, ccount, logsD]
  | some p =>
      have hpe : (p == "") = false := by
        simp only [beq_eq_false_iff_ne, ne_eq]
        intro hcontra
        exact hprev (hcontra ▸ hp)
      cases hq : (content_hash s_info == p) with
      | false =>
          have hqe : content_hash s_info ≠ p := by
            simpa [beq_eq_false_iff_ne] using hq
          have hqe' : p ≠ content_hash s_info := Ne.symm hqe
          refine ⟨?_, ?_, ?_, ?_, ?_, ?_, ?_, ?_, ?_, ?_, ?_⟩ <;>
            simp [perform_check, hp, hpe, hq, scount, fcount, ccount, logsD,
              hqe, hqe']
      | true =>
          have hqe : content_hash s_info = p := by simpa using hq
          refine ⟨?_, ?_, ?_, ?_, ?_, ?_, ?_, ?_, ?_, ?_, ?_⟩ <;>
            simp [perform_check, hp, hpe, hq, scount, fcount, ccount, logsD, hqe]

/-- C1 witness: the first successful check of a freshly registered
target (empty record, no prior fingerprint) stores the new
fingerprint, reports no change, leaves `change_count` at 0 and the
log empty, and counts one success. -/
theorem perform_check_success_witness :
    ((perform_check (.ok [("full_text", JVal.jstr "in stock")])
        "2024-01-01T00:00:00+00:00" {}).1.previous_hash
      = some (content_hash [("full_text", JVal.jstr "in stock")]))
    ∧ ((perform_check (.ok [("full_text", JVal.jstr "in stock")])
        "2024-01-01T00:00:00+00:00" {}).2.2 = false)
    ∧ (ccount (perform_check (.ok [("full_text", JVal.jstr "in stock")])
        "2024-01-01T00:00:00+00:00" {}).1 = 0)
    ∧ (logsD (perform_check (.ok [("full_text", JVal.jstr "in stock")])
        "2024-01-01T00:00:00+00:00" {}).1 = [])
    ∧ (scount (perform_check (.ok [("full_text", JVal.jstr "in stock")])
        "2024-01-01T00:00:00+00:00" {}).1 = 1) := by
  have H := perform_check_success [("full_text", JVal.jstr "in stock")]
    "2024-01-01T00:00:00+00:00" {} (by simp)
  have hch := H.2.2.2.2.2.1 rfl
  have hfr := H.2.2.2.2.1 hch
  exact ⟨H.1, hch, (hfr.2.1).trans (by decide), hfr.2.2,
    (H.2.2.2.2.2.2.1).trans (by decide)⟩

/-- Fill each possibly-missing field that `perform_check` reads with
the default its `setdefault`/`get` call supplies: 0 for the counters,
`""` for `last_error`, `[]` for `log`.  A field that is present is
left unchanged, so only the missing ones are materialised. -/
def fillDefaults (t : Target) : Target :=
  { t with
    success_count := some (t.success_count.getD 0)
    fail_count := some (t.fail_count.getD 0)
    last_error := some (t.last_error.getD "")
    change_count := some (t.change_count.getD 0)
    log := some (t.log.getD []) }

/-- C9: `perform_check` is total over partial target records: for
every target — in particular one missing any of `success_count`,
`fail_count`, `last_error`, `change_count`, or `log`, down to the
empty record of a freshly registered target — it does not fail, and
it behaves exactly as on the record whose missing fields are
initialised to 0, 0, the empty string, 0, and the empty list
(`fillDefaults` touches only missing fields): the returned
status/changed pair and every observable field of the updated target
coincide. -/
theorem perform_check_total_defaults (fetched : Except String Stock)
    (now : String) (t : Target) :
    ((perform_check fetched now t).2
      = (perform_check fetched now (fillDefaults t)).2)
    ∧ (scount (perform_check fetched now t).1
      = scount (perform_check fetched now (fillDefaults t)).1)
    ∧ (fcount (perform_check fetched now t).1
      = fcount (perform_check fetched now (fillDefaults t)).1)
    ∧ (ccount (perform_check fetched now t).1
      = ccount (perform_check fetched now (fillDefaults t)).1)
    ∧ ((perform_check fetched now t).1.last_error
      = (perform_check fetched now (fillDefaults t)).1.last_error)
    ∧ (logsD (perform_check fetched now t).1
      = logsD (perform_check fetched now (fillDefaults t)).1)
    ∧ ((perform_check fetched now t).1.previous_hash
      = (perform_check fetched now (fillDefaults t)).1.previous_hash)
    ∧ ((perform_check fetched now t).1.last_status
      = (perform_check fetched now (fillDefaults t)).1.last_status)
    ∧ ((perform_check fetched now t).1.last_checked
      = (perform_check fetched now (fillDefaults t)).1.last_checked)
    ∧ ((perform_check fetched now t).1.last_change
      = (perform_check fetched now (fillDefaults t)).1.last_change) := by
  cases fetched with
  | error e =>
      refine ⟨?_, ?_, ?_, ?_, ?_, ?_, ?_, ?_, ?_, ?_⟩ <;>
        simp [perform_check, fillDefaults, scount, fcount, ccount, logsD]
  | ok s_info =>
      cases hp : t.previous_hash with
      | none =>
          refine ⟨?_, ?_, ?_, ?_, ?_, ?_, ?_, ?_, ?_, ?_⟩ <;>
            simp [perform_check, fillDefaults, hp,
              scount, fcount, ccount, logsD]
      | some p =>
          cases hc : (!(p == "") && !(content_hash s_info == p)) with
          | false =>
              refine ⟨?_, ?_, ?_, ?_, ?_, ?_, ?_, ?_, ?_, ?_⟩ <;>
                simp [perform_check, fillDefaults, hp, hc,
                  scount, fcount, ccount, logsD]
          | true =>
              refine ⟨?_, ?_, ?_, ?_, ?_, ?_, ?_, ?_, ?_, ?_⟩ <;>
                simp [perform_check, fillDefaults, hp, hc,
                  scount, fcount, ccount, logsD]

/-- A target record missing only `log`: counters and error present.
Used to witness that `perform_check` handles a record with any single
field absent. -/
def logMissingTarget : Target :=
  { success_count := some 4, fail_count := some 1,
    last_error := some "x", change_count := some 2 }

/-- C9 witness: a record missing only `log` (its counters and error
present) is checked exactly like the record with `log` initialised to
the empty list — `fillDefaults` materialises just the missing
field. -/
theorem perform_check_total_defaults_witness :
    ((perform_check (.error "boom") "2024-01-01T00:00:00+00:00"
        logMissingTarget).2
      = (perform_check (.error "boom") "2024-01-01T00:00:00+00:00"
          (fillDefaults logMissingTarget)).2)
    ∧ (logsD (perform_check (.error "boom") "2024-01-01T00:00:00+00:00"
        logMissingTarget).1
      = logsD (perform_check (.error "boom") "2024-01-01T00:00:00+00:00"
          (fillDefaults logMissingTarget)).1)
    ∧ (logMissingTarget.log = none)
    ∧ (fillDefaults logMissingTarget
      = { success_count := some 4, fail_count := some 1,
          last_error := some "x", change_count := some 2,
          log := some [] }) :=
  ⟨(perform_check_total_defaults (.error "boom")
      "2024-01-01T00:00:00+00:00" logMissingTarget).1,
   (perform_check_total_defaults (.error "boom")
      "2024-01-01T00:00:00+00:00" logMissingTarget).2.2.2.2.2.1,
   rfl, rfl⟩

/-- One `perform_check` invocation increments exactly one of
`success_count` / `fail_count` by one, and `change_count` by zero or
one. -/
lemma counts_step (fetched : Except String Stock) (now : String)
    (t : Target) :
    ((scount (perform_check fetched now t).1 = scount t + 1
        ∧ fcount (perform_check fetched now t).1 = fcount t)
      ∨ (fcount (perform_check fetched now t).1 = fcount t + 1
        ∧ scount (perform_check fetched now t).1 = scount t))
    ∧ (ccount (perform_check fetched now t).1 = ccount t
      ∨ ccount (perform_check fetched now t).1 = ccount t + 1) := by
  cases fetched with
  | error e => exact ⟨Or.inr ⟨rfl, rfl⟩, Or.inl rfl⟩
  | ok s_info =>
      cases hp : t.previous_hash with
      | none =>
          refine ⟨Or.inl ⟨?_, ?_⟩, Or.inl ?_⟩ <;>
            simp [perform_check, hp, scount, fcount, ccount]
      | some p =>
          cases hc : (!(p == "") && !(content_hash s_info == p)) with
          | false =>
              refine ⟨Or.inl ⟨?_, ?_⟩, Or.inl ?_⟩ <;>
                simp [perform_check, hp, hc, scount, fcount, ccount]
          | true =>
              refine ⟨Or.inl ⟨?_, ?_⟩, Or.inr ?_⟩ <;>
                simp [perform_check, hp, hc, scount, fcount, ccount]

/-- C8: over any finite sequence of check invocations,
`success_count + fail_count` grows by exactly the number of
invocations (each one incrementing exactly one of the two by one), and
`success_count`, `fail_count`, `change_count` are monotonically
non-decreasing, hence non-negative whenever they start non-negative. -/
theorem runChecks_counts (t : Target)
    (envs : List (Except String Stock × String)) :
    (scount (runChecks t envs) + fcount (runChecks t envs)
        = scount t + fcount t + (envs.length : Int))
    ∧ (scount t ≤ scount (runChecks t envs))
    ∧ (fcount t ≤ fcount (runChecks t envs))
    ∧ (ccount t ≤ ccount (runChecks t envs))
    ∧ (∀ fetched now,
        (scount (perform_check fetched now t).1 = scount t + 1
          ∧ fcount (perform_check fetched now t).1 = fcount t)
        ∨ (fcount (perform_check fetched now t).1 = fcount t + 1
          ∧ scount (perform_check fetched now t).1 = scount t))
    ∧ (0 ≤ scount t → 0 ≤ scount (runChecks t envs))
    ∧ (0 ≤ fcount t → 0 ≤ fcount (runChecks t envs))
    ∧ (0 ≤ ccount t → 0 ≤ ccount (runChecks t envs)) := by
  induction envs generalizing t with
  | nil =>
      exact ⟨by simp [runChecks], le_refl _, le_refl _, le_refl _,
        fun f n => (counts_step f n t).1,
        fun h => h, fun h => h, fun h => h⟩
  | cons e rest ih =>
      have hstep := counts_step e.1 e.2 t
      have hrun : runChecks t (e :: rest)
          = runChecks (perform_check e.1 e.2 t).1 rest := rfl
      obtain ⟨ihsum, ihs, ihf, ihc, _, _, _, _⟩ :=
        ih (perform_check e.1 e.2 t).1
      rcases hstep with ⟨hsf, hcc⟩
      refine ⟨?_, ?_, ?_, ?_, fun f n => (counts_step f n t).1, ?_, ?_, ?_⟩ <;>
        rw [hrun] <;>
        rcases hsf with ⟨h1, h2⟩ | ⟨h1, h2⟩ <;>
        rcases hcc with hc | hc <;>
        (try simp only [List.length_cons]) <;>
        omega

/-- C8 witness: two checks (one failing, one succeeding) on a fresh
target leave `success_count + fail_count = 2`. -/
theorem runChecks_counts_witness :
    (scount (runChecks {} [(.error "boom", "t1"),
        (.ok [("full_text", JVal.jstr "in stock")], "t2")])
      + fcount (runChecks {} [(.error "boom", "t1"),
        (.ok [("full_text", JVal.jstr "in stock")], "t2")]) = 2)
    ∧ (0 ≤ ccount (runChecks {} [(.error "boom", "t1"),
        (.ok [("full_text", JVal.jstr "in stock")], "t2")])) :=
  ⟨(runChecks_counts {} [(.error "boom", "t1"),
      (.ok [("full_text", JVal.jstr "in stock")], "t2")]).1.trans (by decide),
   (runChecks_counts {} [(.error "boom", "t1"),
      (.ok [("full_text", JVal.jstr "in stock")], "t2")]).2.2.2.2.2.2.2
     (by decide)⟩

/-- A present optional field survives a `get`-with-default round
trip. -/
lemma some_getD {α : Type} (o : Option α) (d : α) (h : o.isSome = true) :
    some (o.getD d) = o := by
  cases o with
  | none => cases h
  | some v => rfl

/-- C7: re-registering a URL already present in the snapshot
overwrites only the configuration fields (`url`, `interval_sec`,
`recipients`) and preserves every history field of the stored record;
other URLs are untouched; a new URL gets a target with default
history (status `UNKNOWN`, zero counters, empty error, empty log).
The `isSome` hypotheses say the stored record's history fields are
materialised, which registration itself guarantees (it fills every
field, so any target in the snapshot has them). -/
theorem register_upsert_merge (cfg : Config)
    (targets : String → Option Target) (t0 : Target)
    (hex : targets cfg.url = some t0)
    (h1 : t0.last_status.isSome = true)
    (h2 : t0.change_count.isSome = true)
    (h3 : t0.success_count.isSome = true)
    (h4 : t0.fail_count.isSome = true)
    (h5 : t0.last_error.isSome = true)
    (h6 : t0.log.isSome = true) :
    (register targets cfg cfg.url = some (upsert cfg (some t0)))
    ∧ ((upsert cfg (some t0)).url = some cfg.url)
    ∧ ((upsert cfg (some t0)).interval_sec = some cfg.interval_sec)
    ∧ ((upsert cfg (some t0)).recipients = some cfg.recipients)
    ∧ ((upsert cfg (some t0)).last_checked = t0.last_checked)
    ∧ ((upsert cfg (some t0)).last_status = t0.last_status)
    ∧ ((upsert cfg (some t0)).previous_hash = t0.previous_hash)
    ∧ ((upsert cfg (some t0)).last_change = t0.last_change)
    ∧ ((upsert cfg (some t0)).change_count = t0.change_count)
    ∧ ((upsert cfg (some t0)).success_count = t0.success_count)
    ∧ ((upsert cfg (some t0)).fail_count = t0.fail_count)
    ∧ ((upsert cfg (some t0)).last_error = t0.last_error)
    ∧ ((upsert cfg (some t0)).log = t0.log)
    ∧ (∀ u, u ≠ cfg.url → register targets cfg u = targets u)
    ∧ (upsert cfg none =
        { url := some cfg.url, interval_sec := some cfg.interval_sec,
          recipients := some cfg.recipients,
          last_status := some "UNKNOWN", change_count := some 0,
          success_count := some 0, fail_count := some 0,
          last_error := some "", log := some [] }) := by
  refine ⟨by simp [register, hex], rfl, rfl, rfl, rfl,
    some_getD _ _ h1, rfl, rfl, some_getD _ _ h2, some_getD _ _ h3,
    some_getD _ _ h4, some_getD _ _ h5, some_getD _ _ h6,
    ?_, rfl⟩
  intro u hu
  simp [register, hu]

/-- C7 witness: re-registering a concrete tracked URL with new
configuration keeps its counters and log and installs the new
recipients; `upsert` of a fresh URL yields the default-history
record. -/
theorem register_upsert_merge_witness :
    (register
        (fun s => if s == "u" then
          some { url := some "u", interval_sec := some 60,
                 recipients := some [], last_checked := some "tc",
                 last_status := some "IN_STOCK",
                 previous_hash := some "abc", last_change := some "tg",
                 change_count := some 3, success_count := some 5,
                 fail_count := some 2, last_error := some "",
                 log := some [] }
          else none)
        { url := "u", interval_sec := 300, recipients := ["a@x"] } "u"
      = some (upsert { url := "u", interval_sec := 300,
                       recipients := ["a@x"] }
          (some { url := some "u", interval_sec := some 60,
                  recipients := some [], last_checked := some "tc",
                  last_status := some "IN_STOCK",
                  previous_hash := some "abc", last_change := some "tg",
                  change_count := some 3, success_count := some 5,
                  fail_count := some 2, last_error := some "",
                  log := some [] })))
    ∧ ((upsert { url := "u", interval_sec := 300, recipients := ["a@x"] }
          (some { url := some "u", interval_sec := some 60,
                  recipients := some [], last_checked := some "tc",
                  last_status := some "IN_STOCK",
                  previous_hash := some "abc", last_change := some "tg",
                  change_count := some 3, success_count := some 5,
                  fail_count := some 2, last_error := some "",
                  log := some [] })).success_count = some 5)
    ∧ ((upsert { url := "u", interval_sec := 300, recipients := ["a@x"] }
          (some { url := some "u", interval_sec := some 60,
                  recipients := some [], last_checked := some "tc",
                  last_status := some "IN_STOCK",
                  previous_hash := some "abc", last_change := some "tg",
                  change_count := some 3, success_count := some 5,
                  fail_count := some 2, last_error := some "",
                  log := some [] })).recipients = some ["a@x"]) := by
  have H := register_upsert_merge
    { url := "u", interval_sec := 300, recipients := ["a@x"] }
    (fun s => if s == "u" then
      some { url := some "u", interval_sec := some 60,
             recipients := some [], last_checked := some "tc",
             last_status := some "IN_STOCK",
             previous_hash := some "abc", last_change := some "tg",
             change_count := some 3, success_count := some 5,
             fail_count := some 2, last_error := some "",
             log := some [] }
      else none)
    { url := some "u", interval_sec := some 60,
      recipients := some [], last_checked := some "tc",
      last_status := some "IN_STOCK",
      previous_hash := some "abc", last_change := some "tg",
      change_count := some 3, success_count := some 5,
      fail_count := some 2, last_error := some "",
      log := some [] }
    rfl rfl rfl rfl rfl rfl rfl
  exact ⟨H.1, H.2.2.2.2.2.2.2.2.2.1, H.2.2.2.1⟩

/-- C6: `fetch` attempts the GET up to 3 times.  Within the loop, a
raised exception propagates; a 403/429 response sleeps
`5 × attempt_number` seconds and retries; any other 4xx/5xx status
fails immediately with an error carrying that status; any success
status returns the body immediately.  When all 3 attempts were
403/429, the loop exhausts and the final attempt's response goes
through the ordinary `raise_for_status` path, yielding its status as
an ordinary failure (sleeps 5, 10, 15 were taken). -/
theorem fetch_retry_policy (env : Nat → HttpEvent) :
    (∀ i rem sleeps m, env i = .raise m →
        fetchGo env i (rem + 1) sleeps = (.error (.connErr m), sleeps))
    ∧ (∀ i rem sleeps c b, env i = .resp c b → ¬(400 ≤ c ∧ c < 600) →
        fetchGo env i (rem + 1) sleeps = (.ok b, sleeps))
    ∧ (∀ i rem sleeps c b, env i = .resp c b → 400 ≤ c → c < 600 →
        c ≠ 403 → c ≠ 429 →
        fetchGo env i (rem + 1) sleeps = (.error (.httpErr c), sleeps))
    ∧ (∀ i rem sleeps c b, env i = .resp c b → (c = 403 ∨ c = 429) →
        fetchGo env i (rem + 1) sleeps
          = fetchGo env (i + 1) rem (sleeps ++ [5 * (i + 1)]))
    ∧ (fetch env = fetchGo env 0 3 [])
    ∧ (∀ c0 b0 c1 b1 c2 b2,
        env 0 = .resp c0 b0 → env 1 = .resp c1 b1 → env 2 = .resp c2 b2 →
        (c0 = 403 ∨ c0 = 429) → (c1 = 403 ∨ c1 = 429) →
        (c2 = 403 ∨ c2 = 429) →
        fetch env = (.error (.httpErr c2), [5, 10, 15])) := by
  have hretry : ∀ i rem sleeps c b, env i = .resp c b →
      (c = 403 ∨ c = 429) →
      fetchGo env i (rem + 1) sleeps
        = fetchGo env (i + 1) rem (sleeps ++ [5 * (i + 1)]) := by
    intro i rem sleeps c b h hc
    rcases hc with hc | hc <;> subst hc <;> simp [fetchGo, h]
  refine ⟨?_, ?_, ?_, hretry, rfl, ?_⟩
  · intro i rem sleeps m h
    simp [fetchGo, h]
  · intro i rem sleeps c b h hc
    have h403 : c ≠ 403 := by rintro rfl; exact hc (by omega)
    have h429 : c ≠ 429 := by rintro rfl; exact hc (by omega)
    simp [fetchGo, h, h403, h429, raiseForStatus, hc]
  · intro i rem sleeps c b h h4 h6 h403 h429
    simp [fetchGo, h, h403, h429, raiseForStatus, h4, h6]
  · intro c0 b0 c1 b1 c2 b2 h0 h1 h2 hc0 hc1 hc2
    have e0 := hretry 0 2 [] c0 b0 h0 hc0
    have e1 := hretry 1 1 [5 * (0 + 1)] c1 b1 h1 hc1
    have e2 := hretry 2 0 [5 * (0 + 1), 5 * (1 + 1)] c2 b2 h2 hc2
    have hend : fetchGo env 3 0
        [5 * (0 + 1), 5 * (1 + 1), 5 * (2 + 1)]
        = (.error (.httpErr c2), [5, 10, 15]) := by
      have hc2' : 400 ≤ c2 ∧ c2 < 600 := by
        rcases hc2 with hc | hc <;> subst hc <;> omega
      simp [fetchGo, h2, raiseForStatus, hc2'.1, hc2'.2]
    calc fetch env = fetchGo env 0 3 [] := rfl
      _ = fetchGo env 1 2 ([] ++ [5 * (0 + 1)]) := e0
      _ = fetchGo env 2 1 ([] ++ [5 * (0 + 1)] ++ [5 * (1 + 1)]) := by
            simpa using e1
      _ = fetchGo env 3 0 ([] ++ [5 * (0 + 1)] ++ [5 * (1 + 1)]
            ++ [5 * (2 + 1)]) := by simpa using e2
      _ = (.error (.httpErr c2), [5, 10, 15]) := by simpa using hend

/-- C6 witness: an environment answering 429 on every attempt makes
`fetch` sleep 5, 10, 15 seconds and fail with HTTP error 429; one
answering 200 immediately returns the body with no sleeps. -/
theorem fetch_retry_policy_witness :
    (fetch (fun _ => .resp 429 "blocked")
      = (.error (.httpErr 429), [5, 10, 15]))
    ∧ (fetchGo (fun _ => .resp 200 "page") 0 (2 + 1) []
      = (.ok "page", [])) :=
  ⟨(fetch_retry_policy (fun _ => .resp 429 "blocked")).2.2.2.2.2
      429 "blocked" 429 "blocked" 429 "blocked" rfl rfl rfl
      (Or.inr rfl) (Or.inr rfl) (Or.inr rfl),
   (fetch_retry_policy (fun _ => .resp 200 "page")).2.1
      0 2 [] 200 "page" rfl (by omega)⟩

/-- `insEntry` permutes: inserting is reordering a cons. -/
lemma insEntry_perm (x : String × JVal) (l : List (String × JVal)) :
    (insEntry x l).Perm (x :: l) := by
  induction l with
  | nil => simp [insEntry]
  | cons y ys ih =>
      by_cases hxy : x.1 ≤ y.1
      · simp [insEntry, hxy]
      · simp only [insEntry, hxy, if_false]
        exact (ih.cons y).trans (List.Perm.swap x y ys)

/-- `sortKeys` permutes its input. -/
lemma sortKeys_perm (l : List (String × JVal)) : (sortKeys l).Perm l := by
  induction l with
  | nil => simp [sortKeys]
  | cons x xs ih => exact (insEntry_perm x (sortKeys xs)).trans (ih.cons x)

/-- Inserting into a key-sorted list keeps it key-sorted. -/
lemma insEntry_pairwise (x : String × JVal) (l : List (String × JVal))
    (h : l.Pairwise (fun a b => a.1 ≤ b.1)) :
    (insEntry x l).Pairwise (fun a b => a.1 ≤ b.1) := by
  induction l with
  | nil => simp [insEntry]
  | cons y ys ih =>
      rcases List.pairwise_cons.mp h with ⟨hy, hys⟩
      by_cases hxy : x.1 ≤ y.1
      · simp only [insEntry, hxy, if_true]
        refine List.Pairwise.cons ?_ h
        intro z hz
        rcases List.mem_cons.mp hz with rfl | hz'
        · exact hxy
        · exact le_trans hxy (hy z hz')
      · simp only [insEntry, hxy, if_false]
        refine List.Pairwise.cons ?_ (ih hys)
        intro z hz
        rcases List.mem_cons.mp ((insEntry_perm x ys).subset hz) with rfl | hz'
        · exact le_of_not_le hxy
        · exact hy z hz'

/-- `sortKeys` output is key-sorted. -/
lemma sortKeys_pairwise (l : List (String × JVal)) :
    (sortKeys l).Pairwise (fun a b => a.1 ≤ b.1) := by
  induction l with
  | nil => simp [sortKeys]
  | cons x xs ih => exact insEntry_pairwise x (sortKeys xs) ih

/-- With duplicate-free keys the key order on entries is strict. -/
lemma sortKeys_pairwise_lt (l : List (String × JVal))
    (hnd : (l.map Prod.fst).Nodup) :
    (sortKeys l).Pairwise (fun a b => a.1 < b.1) := by
  have hle := sortKeys_pairwise l
  have hnd' : ((sortKeys l).map Prod.fst).Nodup :=
    (((sortKeys_perm l).map Prod.fst).nodup_iff).mpr hnd
  have hne : (sortKeys l).Pairwise (fun a b => a.1 ≠ b.1) :=
    List.pairwise_map.mp hnd'
  exact (hle.and hne).imp (fun hab => lt_of_le_of_ne hab.1 hab.2)

/-- Two strictly key-sorted lists that are permutations of each other
are equal. -/
lemma sorted_lt_eq_of_perm : ∀ {l1 l2 : List (String × JVal)},
    l1.Perm l2 →
    l1.Pairwise (fun a b => a.1 < b.1) →
    l2.Pairwise (fun a b => a.1 < b.1) → l1 = l2 := by
  intro l1
  induction l1 with
  | nil =>
      intro l2 hp _ _
      exact hp.nil_eq
  | cons a l1' ih =>
      intro l2 hp h1 h2
      cases l2 with
      | nil => exact absurd hp.symm.nil_eq (by simp)
      | cons b l2' =>
          have hab : a = b := by
            by_contra hne
            have ha2' : a ∈ l2' := by
              rcases List.mem_cons.mp (hp.subset (List.mem_cons_self a l1'))
                with h | h
              · exact absurd h hne
              · exact h
            have hb1' : b ∈ l1' := by
              rcases List.mem_cons.mp (hp.symm.subset
                (List.mem_cons_self b l2')) with h | h
              · exact absurd h.symm hne
              · exact h
            exact lt_asymm ((List.pairwise_cons.mp h2).1 a ha2')
              ((List.pairwise_cons.mp h1).1 b hb1')
          subst hab
          rw [ih hp.cons_inv (List.pairwise_cons.mp h1).2
            (List.pairwise_cons.mp h2).2]

/-- C5: `content_hash` is deterministic over the dictionary contents:
two signal sets equal field-for-field — permutations of the same
key/value bindings, whatever the insertion order — hash identically,
because the dictionary is serialised with sorted keys before
hashing. -/
theorem content_hash_deterministic (l1 l2 : Stock)
    (hperm : l1.Perm l2) (hnd : (l1.map Prod.fst).Nodup) :
    content_hash l1 = content_hash l2 := by
  have hnd2 : (l2.map Prod.fst).Nodup := ((hperm.map Prod.fst).nodup_iff).mp hnd
  have hkey : sortKeys l1 = sortKeys l2 :=
    sorted_lt_eq_of_perm
      ((sortKeys_perm l1).trans (hperm.trans (sortKeys_perm l2).symm))
      (sortKeys_pairwise_lt l1 hnd) (sortKeys_pairwise_lt l2 hnd2)
  unfold content_hash dumpsSorted
  rw [hkey]

/-- C5 witness: the same two bindings inserted in either order give
the same fingerprint. -/
theorem content_hash_deterministic_witness :
    ([("notify_button", JVal.jbool true), ("full_text", JVal.jstr "x")].Perm
        [("full_text", JVal.jstr "x"), ("notify_button", JVal.jbool true)])
    ∧ (content_hash [("notify_button", JVal.jbool true),
          ("full_text", JVal.jstr "x")]
        = content_hash [("full_text", JVal.jstr "x"),
          ("notify_button", JVal.jbool true)]) :=
  ⟨List.Perm.swap _ _ _,
   content_hash_deterministic _ _ (List.Perm.swap _ _ _) (by decide)⟩

/-- C3 counterexample: with notification configured and a recipient
present, an SMTP authentication failure propagates out of
`send_email` as a raised exception — refuting "never raises an
exception to its caller". -/
theorem send_email_raises_counterexample :
    (send_email
        { enabled := true, sender := "alerts@example.com",
          password := "pw" }
        "Stock update" "body" ["user@example.com"]
        { connect := fun _ _ => .ok (), starttls := .ok (),
          login := fun _ _ => .error "auth failed",
          sendmail := fun _ _ _ => .ok () }).2
      = .error "auth failed" := rfl

/-- C3 amended: `send_email` swallows only missing/disabled
configuration and an empty recipient list (silent no-op); when the
guard passes, a failure of the SMTP connection, STARTTLS, login, or a
send propagates to the caller as a raised exception.  `perform_check`
itself performs no notification, and the check handler computes and
stores the check result before notifying, so the check's result is
unaffected by any notification failure. -/
theorem send_email_amended (cfg : EmailCfg) (subject body : String)
    (recipients : List String) (env : SmtpEnv) :
    (emailConfigured cfg recipients = false →
        send_email cfg subject body recipients env = ([], .ok ()))
    ∧ (∀ e, emailConfigured cfg recipients = true →
        env.connect (cfg.smtp_server.getD "smtp.gmail.com")
          (cfg.smtp_port.getD 587) = .error e →
        (send_email cfg subject body recipients env).2 = .error e)
    ∧ (∀ e, emailConfigured cfg recipients = true →
        env.connect (cfg.smtp_server.getD "smtp.gmail.com")
          (cfg.smtp_port.getD 587) = .ok () →
        env.starttls = .error e →
        (send_email cfg subject body recipients env).2 = .error e)
    ∧ (∀ e, emailConfigured cfg recipients = true →
        env.connect (cfg.smtp_server.getD "smtp.gmail.com")
          (cfg.smtp_port.getD 587) = .ok () →
        env.starttls = .ok () →
        env.login cfg.sender cfg.password = .error e →
        (send_email cfg subject body recipients env).2 = .error e)
    ∧ (∀ e r rs, emailConfigured cfg recipients = true →
        env.connect (cfg.smtp_server.getD "smtp.gmail.com")
          (cfg.smtp_port.getD 587) = .ok () →
        env.starttls = .ok () →
        env.login cfg.sender cfg.password = .ok () →
        recipients = r :: rs →
        env.sendmail cfg.sender r
          (addHeader { headers := [("From", cfg.sender),
            ("Subject", subject)], body := body } "To" r) = .error e →
        (send_email cfg subject body recipients env).2 = .error e)
    ∧ (∀ fetched now sel t,
        ((checkSelected fetched now sel t cfg env).1
            = (perform_check fetched now t).1)
        ∧ ((checkSelected fetched now sel t cfg env).2.1
            = (perform_check fetched now t).2.1)
        ∧ ((checkSelected fetched now sel t cfg env).2.2.1
            = (perform_check fetched now t).2.2)) := by
  refine ⟨?_, ?_, ?_, ?_, ?_, fun fetched now sel t => ⟨rfl, rfl, rfl⟩⟩
  · intro h; simp [send_email, h]
  · intro e hcfg hconn; simp [send_email, hcfg, hconn]
  · intro e hcfg hconn htls; simp [send_email, hcfg, hconn, htls]
  · intro e hcfg hconn htls hlogin
    simp [send_email, hcfg, hconn, htls, hlogin]
  · intro e r rs hcfg hconn htls hlogin hrec hsend
    subst hrec
    simp [send_email, hcfg, hconn, htls, hlogin, sendLoop, hsend]

/-- C3 amended witness: with notification unconfigured `send_email`
returns without error; with it configured, a login failure surfaces
as an error to the caller. -/
theorem send_email_amended_witness :
    (send_email {} "s" "b" []
        { connect := fun _ _ => .ok (), starttls := .ok (),
          login := fun _ _ => .ok (), sendmail := fun _ _ _ => .ok () }
      = ([], .ok ()))
    ∧ ((send_email
        { enabled := true, sender := "a@x", password := "pw" }
        "s" "b" ["r@y"]
        { connect := fun _ _ => .ok (), starttls := .ok (),
          login := fun _ _ => .error "login refused",
          sendmail := fun _ _ _ => .ok () }).2
      = .error "login refused") :=
  ⟨(send_email_amended {} "s" "b" []
      { connect := fun _ _ => .ok (), starttls := .ok (),
        login := fun _ _ => .ok (), sendmail := fun _ _ _ => .ok () }).1
      (by decide),
   (send_email_amended
      { enabled := true, sender := "a@x", password := "pw" }
      "s" "b" ["r@y"]
      { connect := fun _ _ => .ok (), starttls := .ok (),
        login := fun _ _ => .error "login refused",
        sendmail := fun _ _ _ => .ok () }).2.2.2.1
      "login refused" (by decide) rfl rfl rfl⟩

/-- With every `sendmail` succeeding, the send loop dispatches to each
recipient in order, and the message snapshot sent to the k-th one
carries the initial `To` headers plus the first k+1 recipients. -/
lemma sendLoop_all_ok (env : SmtpEnv) (sender : String)
    (hsend : ∀ f r m, env.sendmail f r m = .ok ()) :
    ∀ (rs : List String) (msg : Msg),
      ((sendLoop env sender msg rs).2 = .ok ())
      ∧ ((sendLoop env sender msg rs).1.map Prod.fst = rs)
      ∧ ((sendLoop env sender msg rs).1.map
            (fun p => headerValues p.2 "To")
          = (List.range rs.length).map
              (fun k => headerValues msg "To" ++ rs.take (k + 1))) := by
  intro rs
  induction rs with
  | nil => intro msg; exact ⟨rfl, rfl, rfl⟩
  | cons r rs' ih =>
      intro msg
      have hadd : headerValues (addHeader msg "To" r) "To"
          = headerValues msg "To" ++ [r] := by
        simp [headerValues, addHeader, List.filterMap_append]
      obtain ⟨ih1, ih2, ih3⟩ := ih (addHeader msg "To" r)
      refine ⟨?_, ?_, ?_⟩
      · simp [sendLoop, hsend, ih1]
      · simp [sendLoop, hsend, ih2]
      · simp only [sendLoop, hsend]
        simp only [List.map_cons, hadd, ih3, List.length_cons]
        rw [List.range_succ_eq_map, List.map_cons, List.map_map]
        congr 1
        apply List.map_congr_left
        intro k _
        simp [Function.comp, List.take_succ_cons, List.append_assoc]

/-- C10: when `send_email` dispatches to n recipients (all SMTP
operations succeeding), the `To` header is appended inside the
per-recipient loop without replacing prior values: the message sent
to the k-th recipient (0-based) carries recipients 0..k in its `To`
headers, so for n ≥ 2 every message after the first names earlier
recipients too; only the first message names its recipient alone. -/
theorem send_email_to_header_accumulates (cfg : EmailCfg)
    (subject body : String) (recipients : List String) (env : SmtpEnv)
    (hcfg : emailConfigured cfg recipients = true)
    (hconn : env.connect (cfg.smtp_server.getD "smtp.gmail.com")
      (cfg.smtp_port.getD 587) = .ok ())
    (htls : env.starttls = .ok ())
    (hlogin : env.login cfg.sender cfg.password = .ok ())
    (hsend : ∀ f r m, env.sendmail f r m = .ok ()) :
    ((send_email cfg subject body recipients env).2 = .ok ())
    ∧ ((send_email cfg subject body recipients env).1.map Prod.fst
        = recipients)
    ∧ ((send_email cfg subject body recipients env).1.map
          (fun p => headerValues p.2 "To")
        = (List.range recipients.length).map
            (fun k => recipients.take (k + 1))) := by
  have H := sendLoop_all_ok env cfg.sender hsend recipients
    { headers := [("From", cfg.sender), ("Subject", subject)],
      body := body }
  have hmsg0 : headerValues
      { headers := [("From", cfg.sender), ("Subject", subject)],
        body := body } "To" = [] := by
    simp [headerValues]
  rw [hmsg0] at H
  simp only [List.nil_append] at H
  refine ⟨?_, ?_, ?_⟩ <;>
    simp only [send_email, hcfg, hconn, htls, hlogin, Bool.not_true,
      Bool.false_eq_true, if_false] <;>
    first
    | exact H.1
    | exact H.2.1
    | exact H.2.2

/-- C10 witness: two recipients, all SMTP operations succeeding: the
first message's `To` header names the first recipient alone, the
second message's `To` headers name both. -/
theorem send_email_to_header_accumulates_witness :
    ((send_email
        { enabled := true, sender := "a@x", password := "pw" }
        "s" "b" ["r1@y", "r2@z"]
        { connect := fun _ _ => .ok (), starttls := .ok (),
          login := fun _ _ => .ok (),
          sendmail := fun _ _ _ => .ok () }).1.map
        (fun p => headerValues p.2 "To")
      = [["r1@y"], ["r1@y", "r2@z"]])
    ∧ ((send_email
        { enabled := true, sender := "a@x", password := "pw" }
        "s" "b" ["r1@y", "r2@z"]
        { connect := fun _ _ => .ok (), starttls := .ok (),
          login := fun _ _ => .ok (),
          sendmail := fun _ _ _ => .ok () }).2 = .ok ()) := by
  have H := send_email_to_header_accumulates
    { enabled := true, sender := "a@x", password := "pw" }
    "s" "b" ["r1@y", "r2@z"]
    { connect := fun _ _ => .ok (), starttls := .ok (),
      login := fun _ _ => .ok (), sendmail := fun _ _ _ => .ok () }
    (by decide) rfl rfl rfl (fun f r m => rfl)
  exact ⟨H.2.2.trans (by decide), H.1⟩
